import Mathlib

/-!
Verification of the exchange-box platform against its specification.

The development embeds, as executable Lean definitions, the item ledger
service (ItemService), the two item controllers, the user controller
cache logic, the friend service, and the spec-level Exchange Lifecycle
Coordinator, and proves the specified properties about them.
-/

set_option maxRecDepth 4096

/-- Row of the item table: id, owner, friend, dimensions and the nullable
exchange tag, mirroring the columns the source reads and writes. -/
structure Item where
  id : Nat
  user_id : Nat
  friend_id : Nat
  length : Nat
  width : Nat
  height : Nat
  exchange_id : Option Nat
deriving DecidableEq, Repr

/-- Projection returned by retrieveItemSizesAndCheckExchange, one entry per
selected row, mirroring ItemSizeDto. -/
structure ItemSizeDto where
  length : Nat
  width : Nat
  height : Nat
  id : Nat
deriving DecidableEq, Repr

namespace ItemService

/-- Embeds ItemService.retrieveItemSizesAndCheckExchange: selects the rows
whose id is listed, and when the udpate flag is false fails if any selected
row already carries a non-null exchange tag.  The inner conflict error is
caught and rethrown by the source as the generic message, which is what the
caller observes. -/
def retrieveItemSizesAndCheckExchange (table : List Item) (ids : List Nat)
    (udpate : Bool) : Except String (List ItemSizeDto) :=
  let data := table.filter (fun it => it.id ∈ ids)
  if udpate = false ∧ data.any (fun it => it.exchange_id ≠ none) then
    .error "Failed to fetch item sizes"
  else
    .ok (data.map (fun it => ⟨it.length, it.width, it.height, it.id⟩))

/-- Embeds ItemService.addExchangeIdToItem: unconditionally sets the
exchange tag of every listed row to the given exchange id and returns the
updated table together with the updated rows. -/
def addExchangeIdToItem (table : List Item) (exid : Nat) (item_ids : List Nat) :
    List Item × List Item :=
  let updated := table.map
    (fun it => if it.id ∈ item_ids then { it with exchange_id := some exid } else it)
  (updated, updated.filter (fun it => it.id ∈ item_ids))

/-- Embeds ItemService.deleteItem: fetches the row, refuses when the row is
missing or carries an exchange tag; the source catches every error and
returns false, so both refusals surface as a plain false with the table
unchanged. -/
def deleteItem (table : List Item) (item_id : Nat) : Bool × List Item :=
  match table.find? (fun it => it.id == item_id) with
  | none => (false, table)
  | some it =>
    if it.exchange_id ≠ none then (false, table)
    else (true, table.filter (fun r => r.id ≠ item_id))

/-- Embeds ItemService.deleteExchangeFromItems: sets the exchange tag of
every listed row to null and returns true. -/
def deleteExchangeFromItems (table : List Item) (item_ids : List Nat) :
    Bool × List Item :=
  (true, table.map
    (fun it => if it.id ∈ item_ids then { it with exchange_id := none } else it))

/-- Embeds ItemService.getUserItems: with the forgoten flag true it filters
the table on user_id, with the flag false on friend_id. -/
def getUserItems (table : List Item) (user_id : Nat) (forgoten : Bool) :
    List Item :=
  if forgoten then table.filter (fun it => it.user_id = user_id)
  else table.filter (fun it => it.friend_id = user_id)

/-- Embeds the friendship gate at the start of ItemService.createItem: the
remote check result is awaited; a rejected call is rethrown, and a false
response raises the not-friends error before any insertion happens. -/
def createItemFriendCheck (checkResult : Except String Bool) :
    Except String Unit :=
  match checkResult with
  | .error e => .error e
  | .ok response =>
    if response = false then
      .error "Cannot create item: The specified users are not friends."
    else
      .ok ()

end ItemService

namespace ItemController

/-- Embeds the cached controller handler for getUserItems: on a cache hit it
returns the cached list, otherwise it calls ItemService.getUserItems with
the forgoten flag set to true. -/
def getUserItems (cached : Option (List Item)) (table : List Item) (id : Nat) :
    List Item :=
  match cached with
  | some cachedUserItems => cachedUserItems
  | none => ItemService.getUserItems table id true

/-- Embeds the cached controller handler for getUserForgotenItems: on a
cache hit it returns the cached list, otherwise it calls
ItemService.getUserItems with the forgoten flag set to false. -/
def getUserForgotenItems (cached : Option (List Item)) (table : List Item)
    (id : Nat) : List Item :=
  match cached with
  | some cachedUserForgottenItems => cachedUserForgottenItems
  | none => ItemService.getUserItems table id false

end ItemController

namespace ItemControllerTcp

/-- Embeds the second, uncached item controller handler for getUserItems,
which calls ItemService.getUserItems with the forgoten flag set to false. -/
def getUserItems (table : List Item) (user_id : Nat) : List Item :=
  ItemService.getUserItems table user_id false

/-- Embeds the second, uncached item controller handler for
getUserForgotenItems, which calls ItemService.getUserItems with the
forgoten flag set to true. -/
def getUserForgotenItems (table : List Item) (user_id : Nat) : List Item :=
  ItemService.getUserItems table user_id true

end ItemControllerTcp

/-- User record as returned by the user service, reduced to the fields the
cache claims need. -/
structure UserDto where
  id : Nat
  name : String
deriving DecidableEq, Repr

/-- Lookup in the controller TTL cache, keyed by string. -/
def cacheGet (cache : List (String × UserDto)) (key : String) : Option UserDto :=
  (cache.find? (fun p => p.1 == key)).map (fun p => p.2)

/-- Store in the controller TTL cache, replacing any entry under the key. -/
def cacheSet (cache : List (String × UserDto)) (key : String) (v : UserDto) :
    List (String × UserDto) :=
  (key, v) :: cache.filter (fun p => p.1 ≠ key)

namespace UserController

/-- Embeds UserController.getUser: the cache is consulted under the single
fixed key getUser, independent of the requested id; on a miss the service
result for the requested id is fetched and stored under that same fixed
key.  Returns the answer and the post-call cache. -/
def getUser (svc : Nat → UserDto) (cache : List (String × UserDto)) (id : Nat) :
    UserDto × List (String × UserDto) :=
  match cacheGet cache "getUser" with
  | some cachedUser => (cachedUser, cache)
  | none =>
    let user := svc id
    (user, cacheSet cache "getUser" user)

end UserController

/-- User row with its friends relation, as loaded by the friend service. -/
structure UserRow where
  id : Nat
  friends : List Nat
deriving DecidableEq, Repr

/-- Typed exceptions thrown by the user friend service. -/
inductive UserErr
  | NotFoundEx (msg : String)
  | ConflictEx (msg : String)
  | InternalEx (msg : String)
deriving DecidableEq, Repr

/-- Message carried by a user-service exception, as rethrown over the wire
by RpcException. -/
def UserErr.message : UserErr → String
  | .NotFoundEx m => m
  | .ConflictEx m => m
  | .InternalEx m => m

namespace UserFriendService

/-- Embeds UserFriendService.checkIfFriends: loads the user and the friend,
throwing NotFound when either is missing; when the friend appears in the
user friends list it throws a ConflictException, and otherwise it returns
false.  The catch block rethrows NotFound and Conflict unchanged. -/
def checkIfFriends (users : List UserRow) (userId friendId : Nat) :
    Except UserErr Bool :=
  match users.find? (fun u => u.id == userId) with
  | none => .error (.NotFoundEx "User not found.")
  | some user =>
    match users.find? (fun u => u.id == friendId) with
    | none => .error (.NotFoundEx "Friend not found.")
    | some _ =>
      if friendId ∈ user.friends then
        .error (.ConflictEx "The specified users are friends.")
      else
        .ok false

end UserFriendService

namespace UserController

/-- Embeds the user controller handler for checkIfFriends: the service
result is returned as-is; a thrown exception is rethrown as an
RpcException carrying the exception message, which the remote caller
observes as a rejected call. -/
def checkIfFriends (users : List UserRow) (userId friendId : Nat) :
    Except String Bool :=
  match UserFriendService.checkIfFriends users userId friendId with
  | .ok b => .ok b
  | .error e => .error e.message

end UserController

/-- Role of the party a box access code is issued for. -/
inductive Role
  | creator
  | pickup
deriving DecidableEq, Repr, BEq

/-- States of the exchange state machine. -/
inductive ExStatus
  | PROPOSED
  | ITEMS_COMMITTED
  | BOX_ASSIGNED
  | AWAITING_PICKUP
  | COMPLETED
  | CANCELLED
  | EXPIRED
deriving DecidableEq, Repr, BEq

/-- Business-rule failure taxonomy of the coordinator. -/
inductive CoordErr
  | ItemConflict
  | NoCapacity
  | InvalidCode
  | InvalidRole
  | StateConflict
  | InvalidCancellation
  | NotFound
deriving DecidableEq, Repr

/-- Box access code record: the exchange it is scoped to, the role it was
issued for, its value, the consumed flag and the expiry instant. -/
structure AccessCode where
  exchangeId : Nat
  role : Role
  value : Nat
  consumed : Bool
  expiresAt : Nat
deriving DecidableEq, Repr

/-- Exchange record: parties, canonical status, nullable box assignment and
the optional pickup deadline. -/
structure Exchange where
  id : Nat
  creatorId : Nat
  pickupId : Nat
  status : ExStatus
  boxId : Option Nat
  deadline : Option Nat
deriving DecidableEq, Repr

/-- Coordinator state: the item table with its exchange tags, the exchange
records, the issued codes and the id counters. -/
structure CoordState where
  items : List Item
  exchanges : List Exchange
  codes : List AccessCode
  nextExchangeId : Nat
  nextCodeValue : Nat
deriving DecidableEq, Repr

/-- True when the pickup deadline of the exchange has elapsed (the deadline
instant counts as elapsed); false when no deadline is set. -/
def Exchange.deadlineElapsed (ex : Exchange) (now : Nat) : Bool :=
  match ex.deadline with
  | some d => d ≤ now
  | none => false

/-- True when the exchange sits in a state from which the pickup deadline
can expire it and that deadline has elapsed. -/
def Exchange.expiresNow (ex : Exchange) (now : Nat) : Bool :=
  (ex.status == .BOX_ASSIGNED || ex.status == .AWAITING_PICKUP) &&
    ex.deadlineElapsed now

/-- Status a caller observes at the given instant: an exchange past its
pickup deadline is observed as EXPIRED, lazily, per the expiry strategy of
the spec. -/
def Exchange.effectiveStatus (ex : Exchange) (now : Nat) : ExStatus :=
  if ex.expiresNow now then .EXPIRED else ex.status

/-- Legality of a single state-machine transition, per the transition table
of the spec: the forward chain, CANCELLED from any non-terminal state, and
EXPIRED from the two deadline-bearing states. -/
def legalNext : ExStatus → ExStatus → Bool
  | .PROPOSED, .ITEMS_COMMITTED => true
  | .ITEMS_COMMITTED, .BOX_ASSIGNED => true
  | .BOX_ASSIGNED, .AWAITING_PICKUP => true
  | .AWAITING_PICKUP, .COMPLETED => true
  | .BOX_ASSIGNED, .EXPIRED => true
  | .AWAITING_PICKUP, .EXPIRED => true
  | .PROPOSED, .CANCELLED => true
  | .ITEMS_COMMITTED, .CANCELLED => true
  | .BOX_ASSIGNED, .CANCELLED => true
  | .AWAITING_PICKUP, .CANCELLED => true
  | _, _ => false

namespace Ledger

/-- Modelled from the spec: one step of Ledger.tagItems, the contract the
coordinator consumes (the ledger service binding is outside src, only its
supabase-backed analogue addExchangeIdToItem is present).  Tags a single
currently-untagged item, failing with NotFound for an unknown item and
with ItemConflict when the item already carries a non-null exchange tag. -/
def tagOne (items : List Item) (exId : Nat) (itemId : Nat) :
    Except CoordErr (List Item) :=
  match items.find? (fun it => it.id == itemId) with
  | none => .error .NotFound
  | some it =>
    if it.exchange_id ≠ none then .error .ItemConflict
    else .ok (items.map
      (fun r => if r.id = itemId then { r with exchange_id := some exId } else r))

/-- Modelled from the spec: Ledger.tagItems tags the listed items one at a
time and fails on the first conflict or unknown id; the caller is in
charge of the atomicity boundary. -/
def tagItems (items : List Item) (exId : Nat) : List Nat → Except CoordErr (List Item)
  | [] => .ok items
  | i :: rest =>
    match tagOne items exId i with
    | .error e => .error e
    | .ok items' => tagItems items' exId rest

end Ledger

namespace Coordinator

/-- Modelled from the spec: proposeExchange of the Exchange Lifecycle
Coordinator (exchange.service.ts is not under src, only its controller).
Requires a non-empty item list, tags the items with the new exchange id
transactionally with creating the Exchange record, and on any tagging
failure rolls the whole operation back: the error is returned with the
pre-call state, and no Exchange record is created. -/
def proposeExchange (st : CoordState) (creatorId pickupId : Nat)
    (itemIds : List Nat) (deadline : Option Nat) :
    Except CoordErr Nat × CoordState :=
  if itemIds.isEmpty then (.error .StateConflict, st)
  else
    match Ledger.tagItems st.items st.nextExchangeId itemIds with
    | .error e => (.error e, st)
    | .ok items' =>
      let ex : Exchange :=
        ⟨st.nextExchangeId, creatorId, pickupId, .PROPOSED, none, deadline⟩
      (.ok st.nextExchangeId,
        { st with
            items := items'
            exchanges := st.exchanges ++ [ex]
            nextExchangeId := st.nextExchangeId + 1 })

/-- Modelled from the spec: requestBoxOpen issues a fresh access code for
the exchange when the requested role matches the legal next transition
(creator while BOX_ASSIGNED, pickup while AWAITING_PICKUP), failing with
InvalidRole otherwise and NotFound for an unknown exchange.  Issuing
invalidates every prior unconsumed code of the exchange, upholding the
at-most-one-active-code invariant of the data model. -/
def requestBoxOpen (st : CoordState) (exId : Nat) (role : Role)
    (now ttl : Nat) : Except CoordErr Nat × CoordState :=
  match st.exchanges.find? (fun e => e.id == exId) with
  | none => (.error .NotFound, st)
  | some ex =>
    match role, ex.status with
    | .creator, .BOX_ASSIGNED =>
      (.ok st.nextCodeValue,
        { st with
            codes := (⟨exId, role, st.nextCodeValue, false, now + ttl⟩ : AccessCode)
              :: st.codes.map
                (fun c => if c.exchangeId == exId then { c with consumed := true } else c)
            nextCodeValue := st.nextCodeValue + 1 })
    | .pickup, .AWAITING_PICKUP =>
      (.ok st.nextCodeValue,
        { st with
            codes := (⟨exId, role, st.nextCodeValue, false, now + ttl⟩ : AccessCode)
              :: st.codes.map
                (fun c => if c.exchangeId == exId then { c with consumed := true } else c)
            nextCodeValue := st.nextCodeValue + 1 })
    | _, _ => (.error .InvalidRole, st)

/-- Modelled from the spec: consumeBoxOpen re-evaluates the pickup deadline
lazily and refuses with StateConflict once it has elapsed, validates the
code (scoped to this exchange, unconsumed, and unexpired with the validity
interval excluding the expiry instant itself) failing with InvalidCode,
then marks the code consumed and advances the state machine for the role
the code was issued for; a role that does not match an openable status
fails with StateConflict.  Every failure returns the pre-call state. -/
def consumeBoxOpen (st : CoordState) (exId : Nat) (codeValue : Nat)
    (now : Nat) : Except CoordErr Unit × CoordState :=
  match st.exchanges.find? (fun e => e.id == exId) with
  | none => (.error .NotFound, st)
  | some ex =>
    if ex.expiresNow now then (.error .StateConflict, st)
    else
      match st.codes.find? (fun c => c.exchangeId == exId && c.value == codeValue) with
      | none => (.error .InvalidCode, st)
      | some c =>
        if c.consumed || !(now < c.expiresAt) then (.error .InvalidCode, st)
        else
          let consumedCodes := st.codes.map
            (fun cc => if cc.exchangeId == exId && cc.value == codeValue then
                { cc with consumed := true } else cc)
          match c.role, ex.status with
          | .creator, .BOX_ASSIGNED =>
            (.ok (),
              { st with
                  codes := consumedCodes
                  exchanges := st.exchanges.map
                    (fun e => if e.id == exId then { e with status := .AWAITING_PICKUP } else e) })
          | .pickup, .AWAITING_PICKUP =>
            (.ok (),
              { st with
                  codes := consumedCodes
                  exchanges := st.exchanges.map
                    (fun e => if e.id == exId then
                        { e with status := .COMPLETED, boxId := none } else e)
                  items := st.items.map
                    (fun it => if it.exchange_id = some exId then
                        { it with exchange_id := none } else it) })
          | _, _ => (.error .StateConflict, st)

/-- Modelled from the spec: changeExchangeStatus applies a single
state-machine transition (the exchange service behind the controller
endpoint is not under src).  It refuses with StateConflict both when the
pickup deadline has elapsed (the expiry guarantee: an expired exchange is
never advanced) and when the requested transition is not legal; failures
return the pre-call state. -/
def changeExchangeStatus (st : CoordState) (exId : Nat) (target : ExStatus)
    (now : Nat) : Except CoordErr Unit × CoordState :=
  match st.exchanges.find? (fun e => e.id == exId) with
  | none => (.error .NotFound, st)
  | some ex =>
    if ex.expiresNow now then (.error .StateConflict, st)
    else if legalNext ex.status target then
      (.ok (),
        { st with
            exchanges := st.exchanges.map
              (fun e => if e.id == exId then { e with status := target } else e) })
    else (.error .StateConflict, st)

/-- Modelled from the spec: cancelExchange transitions a non-terminal
exchange to CANCELLED, clearing all of its item tags and releasing any box
in the same step; it fails with InvalidCancellation when the exchange is
terminal, judging the status lazily so that a past-deadline exchange
counts as EXPIRED and can no longer be cancelled. -/
def cancelExchange (st : CoordState) (exId : Nat) (now : Nat) :
    Except CoordErr Unit × CoordState :=
  match st.exchanges.find? (fun e => e.id == exId) with
  | none => (.error .NotFound, st)
  | some ex =>
    let status := ex.effectiveStatus now
    if status = .COMPLETED ∨ status = .EXPIRED ∨ status = .CANCELLED then
      (.error .InvalidCancellation, st)
    else
      (.ok (),
        { st with
            exchanges := st.exchanges.map
              (fun e => if e.id == exId then
                  { e with status := .CANCELLED, boxId := none } else e)
            items := st.items.map
              (fun it => if it.exchange_id = some exId then
                  { it with exchange_id := none } else it) })

/-- Modelled from the spec: getStatus is a read-only projection of the
current status (evaluated lazily against the pickup deadline) and box id;
it never mutates state. -/
def getStatus (st : CoordState) (exId : Nat) (now : Nat) :
    Except CoordErr (ExStatus × Option Nat) :=
  match st.exchanges.find? (fun e => e.id == exId) with
  | none => .error .NotFound
  | some ex => .ok (ex.effectiveStatus now, ex.boxId)

/-- Modelled from the spec: the background expiry sweep marks every
exchange whose pickup deadline has elapsed as EXPIRED, releases its items
back to an untagged state and releases its box. -/
def expireSweep (st : CoordState) (now : Nat) : CoordState :=
  { st with
      exchanges := st.exchanges.map
        (fun e => if e.expiresNow now then { e with status := .EXPIRED, boxId := none } else e)
      items := st.items.map
        (fun it =>
          match it.exchange_id with
          | some ex =>
            if st.exchanges.any (fun e => e.id == ex && e.expiresNow now) then
              { it with exchange_id := none }
            else it
          | none => it) }

end Coordinator

/-- Finding under a predicate commutes with mapping a function that
preserves the predicate: the first match is mapped pointwise. -/
theorem find?_map_pres {α : Type} (p : α → Bool) (h : α → α)
    (hp : ∀ a, p (h a) = p a) :
    ∀ (l : List α) (a : α), l.find? p = some a →
      (l.map h).find? p = some (h a) := by
  intro l
  induction l with
  | nil => intro a ha; simp [List.find?] at ha
  | cons x xs ih =>
    intro a ha
    by_cases hx : p x = true
    · rw [List.find?_cons_of_pos _ hx] at ha
      injection ha with ha
      subst ha
      rw [List.map_cons, List.find?_cons_of_pos]
      rw [hp]
      exact hx
    · rw [List.find?_cons_of_neg _ (by simpa using hx)] at ha
      rw [List.map_cons, List.find?_cons_of_neg]
      · exact ih a ha
      · simp [hp, hx]

/-- Counting under a predicate can only shrink when mapping a function
that never turns a non-matching element into a matching one. -/
theorem countP_map_le {α : Type} (p : α → Bool) (f : α → α)
    (h : ∀ a, p (f a) = true → p a = true) :
    ∀ l : List α, (l.map f).countP p ≤ l.countP p := by
  intro l
  induction l with
  | nil => simp
  | cons x xs ih =>
    rw [List.map_cons, List.countP_cons, List.countP_cons]
    by_cases hx : p (f x) = true
    · rw [hx, h x hx]
      omega
    · simp only [Bool.not_eq_true] at hx
      simp only [hx, Bool.false_eq_true, if_false]
      omega

/-- Counting is monotone along a pointwise implication of predicates. -/
theorem countP_le_countP {α : Type} (p q : α → Bool)
    (h : ∀ a, p a = true → q a = true) :
    ∀ l : List α, l.countP p ≤ l.countP q := by
  intro l
  induction l with
  | nil => simp
  | cons x xs ih =>
    rw [List.countP_cons, List.countP_cons]
    by_cases hx : p x = true
    · rw [hx, h x hx]; omega
    · simp only [Bool.not_eq_true] at hx
      simp only [hx, Bool.false_eq_true, if_false]
      omega

/-- Claim C1: atomicity of failed transitions.  For every exchange-mutating
operation of the coordinator (proposeExchange in particular, and also
requestBoxOpen, consumeBoxOpen, changeExchangeStatus and cancelExchange),
whenever the operation returns a failure the post-call state equals the
pre-call state: no Exchange record is created, no item tag is changed and
no box occupancy is changed. -/
theorem claim_C1_failed_transition_rollback :
    (∀ st c p ids d e,
      (Coordinator.proposeExchange st c p ids d).1 = .error e →
      (Coordinator.proposeExchange st c p ids d).2 = st) ∧
    (∀ st exId role now ttl e,
      (Coordinator.requestBoxOpen st exId role now ttl).1 = .error e →
      (Coordinator.requestBoxOpen st exId role now ttl).2 = st) ∧
    (∀ st exId v now e,
      (Coordinator.consumeBoxOpen st exId v now).1 = .error e →
      (Coordinator.consumeBoxOpen st exId v now).2 = st) ∧
    (∀ st exId t now e,
      (Coordinator.changeExchangeStatus st exId t now).1 = .error e →
      (Coordinator.changeExchangeStatus st exId t now).2 = st) ∧
    (∀ st exId now e,
      (Coordinator.cancelExchange st exId now).1 = .error e →
      (Coordinator.cancelExchange st exId now).2 = st) := by
  refine ⟨?_, ?_, ?_, ?_, ?_⟩
  · intro st c p ids d e
    unfold Coordinator.proposeExchange
    split
    · intro _; rfl
    · split
      · intro _; rfl
      · intro h; simp at h
  · intro st exId role now ttl e
    unfold Coordinator.requestBoxOpen
    split
    · intro _; rfl
    · split
      · intro h; simp at h
      · intro h; simp at h
      · intro _; rfl
  · intro st exId v now e
    unfold Coordinator.consumeBoxOpen
    split
    · intro _; rfl
    · split
      · intro _; rfl
      · split
        · intro _; rfl
        · split
          · intro _; rfl
          · split
            · intro h; simp at h
            · intro h; simp at h
            · intro _; rfl
  · intro st exId t now e
    unfold Coordinator.changeExchangeStatus
    split
    · intro _; rfl
    · split
      · intro _; rfl
      · split
        · intro h; simp at h
        · intro _; rfl
  · intro st exId now e
    unfold Coordinator.cancelExchange
    split
    · intro _; rfl
    · dsimp only
      split
      · intro _; rfl
      · intro h; simp at h

/-- Fixture: an exchange sitting in BOX_ASSIGNED with box 7 and pickup
deadline 100, between users 10 and 20. -/
def exFixture : Exchange := ⟨1, 10, 20, .BOX_ASSIGNED, some 7, some 100⟩

/-- Fixture coordinator state: one tagged and one untagged item and the
BOX_ASSIGNED exchange of exFixture. -/
def stFixture : CoordState :=
  ⟨[⟨1, 10, 20, 2, 3, 4, some 1⟩, ⟨2, 10, 20, 2, 3, 4, none⟩],
   [exFixture], [], 2, 5⟩

/-- Witness for claim C1: a concrete failing proposeExchange call (the
item list names an already tagged item) leaves the concrete state intact. -/
theorem claim_C1_witness :
    (Coordinator.proposeExchange stFixture 10 20 [1] none).2 = stFixture :=
  claim_C1_failed_transition_rollback.1 stFixture 10 20 [1] none
    .ItemConflict (by rfl)

/-- Claim C5: no progress after expiry.  Once the pickup deadline of an
exchange in a deadline-bearing state has elapsed, consumeBoxOpen,
changeExchangeStatus and cancelExchange all refuse without touching the
state, getStatus observes the exchange as EXPIRED, requestBoxOpen never
changes any exchange record, and the expiry sweep moves the exchange to
EXPIRED; hence no operation ever advances it to AWAITING_PICKUP or
COMPLETED after the deadline. -/
theorem claim_C5_no_progress_after_expiry :
    (∀ st exId ex v now,
      st.exchanges.find? (fun e => e.id == exId) = some ex →
      ex.expiresNow now = true →
      Coordinator.consumeBoxOpen st exId v now = (.error .StateConflict, st)) ∧
    (∀ st exId ex t now,
      st.exchanges.find? (fun e => e.id == exId) = some ex →
      ex.expiresNow now = true →
      Coordinator.changeExchangeStatus st exId t now = (.error .StateConflict, st)) ∧
    (∀ st exId ex now,
      st.exchanges.find? (fun e => e.id == exId) = some ex →
      ex.expiresNow now = true →
      Coordinator.cancelExchange st exId now = (.error .InvalidCancellation, st)) ∧
    (∀ st exId ex now,
      st.exchanges.find? (fun e => e.id == exId) = some ex →
      ex.expiresNow now = true →
      Coordinator.getStatus st exId now = .ok (.EXPIRED, ex.boxId)) ∧
    (∀ st exId role now ttl,
      (Coordinator.requestBoxOpen st exId role now ttl).2.exchanges = st.exchanges) ∧
    (∀ st exId ex now,
      st.exchanges.find? (fun e => e.id == exId) = some ex →
      ex.expiresNow now = true →
      (((Coordinator.expireSweep st now).exchanges.find?
          (fun e => e.id == exId)).map Exchange.status) = some .EXPIRED) := by
  refine ⟨?_, ?_, ?_, ?_, ?_, ?_⟩
  · intro st exId ex v now hfind hexp
    simp [Coordinator.consumeBoxOpen, hfind, hexp]
  · intro st exId ex t now hfind hexp
    simp [Coordinator.changeExchangeStatus, hfind, hexp]
  · intro st exId ex now hfind hexp
    simp [Coordinator.cancelExchange, hfind, Exchange.effectiveStatus, hexp]
  · intro st exId ex now hfind hexp
    simp [Coordinator.getStatus, hfind, Exchange.effectiveStatus, hexp]
  · intro st exId role now ttl
    unfold Coordinator.requestBoxOpen
    split
    · rfl
    · split <;> rfl
  · intro st exId ex now hfind hexp
    have hp : ∀ a : Exchange,
        ((if a.expiresNow now then
            { a with status := .EXPIRED, boxId := none } else a).id == exId)
          = (a.id == exId) := by
      intro a
      by_cases ha : a.expiresNow now = true <;> simp [ha]
    have := find?_map_pres (fun e => e.id == exId)
      (fun a => if a.expiresNow now then
        { a with status := .EXPIRED, boxId := none } else a)
      hp st.exchanges ex hfind
    simp only [Coordinator.expireSweep, this, hexp, if_pos]
    rfl

/-- Fixture: an exchange in AWAITING_PICKUP whose pickup deadline 100 has
elapsed at instant 150. -/
def exExpiredFixture : Exchange := ⟨3, 10, 20, .AWAITING_PICKUP, some 7, some 100⟩

/-- Fixture coordinator state holding the expired exchange and one item
still tagged to it. -/
def stExpiredFixture : CoordState :=
  ⟨[⟨1, 10, 20, 2, 3, 4, some 3⟩], [exExpiredFixture], [], 4, 5⟩

/-- Witness for claim C5: at instant 150, past the deadline 100, the
concrete expired exchange refuses a box open and a status change
unchanged, and is observed as EXPIRED. -/
theorem claim_C5_witness :
    Coordinator.consumeBoxOpen stExpiredFixture 3 5 150
        = (.error .StateConflict, stExpiredFixture) ∧
    Coordinator.changeExchangeStatus stExpiredFixture 3 .COMPLETED 150
        = (.error .StateConflict, stExpiredFixture) ∧
    Coordinator.getStatus stExpiredFixture 3 150 = .ok (.EXPIRED, some 7) :=
  ⟨claim_C5_no_progress_after_expiry.1 stExpiredFixture 3 exExpiredFixture 5 150
      (by rfl) (by rfl),
   claim_C5_no_progress_after_expiry.2.1 stExpiredFixture 3 exExpiredFixture
      .COMPLETED 150 (by rfl) (by rfl),
   claim_C5_no_progress_after_expiry.2.2.2.1 stExpiredFixture 3 exExpiredFixture 150
      (by rfl) (by rfl)⟩

/-- Claim C6: expiry boundary.  Validating a box access code at the instant
exactly equal to its expiry instant treats the code as expired: the
consumeBoxOpen validation fails with InvalidCode and leaves the state
unchanged, because the validity interval excludes the expiry instant. -/
theorem claim_C6_expiry_boundary :
    ∀ st exId ex c v,
      st.exchanges.find? (fun e => e.id == exId) = some ex →
      ex.expiresNow c.expiresAt = false →
      st.codes.find? (fun cc => cc.exchangeId == exId && cc.value == v) = some c →
      Coordinator.consumeBoxOpen st exId v c.expiresAt = (.error .InvalidCode, st) := by
  intro st exId ex c v hfind hexp hcode
  simp [Coordinator.consumeBoxOpen, hfind, hexp, hcode]

/-- Fixture: an unconsumed creator code for exchange 1 with expiry
instant 60. -/
def codeFixture : AccessCode := ⟨1, .creator, 5, false, 60⟩

/-- Fixture coordinator state: the BOX_ASSIGNED exchange of exFixture with
the unconsumed code of codeFixture. -/
def stCodeFixture : CoordState :=
  ⟨[⟨1, 10, 20, 2, 3, 4, some 1⟩], [exFixture], [codeFixture], 2, 6⟩

/-- Witness for claim C6: consuming the concrete code exactly at its expiry
instant 60 fails with InvalidCode and leaves the state unchanged. -/
theorem claim_C6_witness :
    Coordinator.consumeBoxOpen stCodeFixture 1 5 60
      = (.error .InvalidCode, stCodeFixture) :=
  claim_C6_expiry_boundary stCodeFixture 1 exFixture codeFixture 5
    (by rfl) (by rfl) (by rfl)

/-- At most one unconsumed access code exists per exchange: the invariant
the code generator maintains. -/
def codeInv (st : CoordState) : Prop :=
  ∀ exId : Nat,
    st.codes.countP (fun c => c.exchangeId == exId && !c.consumed) ≤ 1

/-- After invalidating every code of an exchange, no unconsumed code of
that exchange remains. -/
theorem countP_invalidated (exId : Nat) :
    ∀ l : List AccessCode,
      (l.map (fun c => if c.exchangeId == exId then { c with consumed := true } else c)).countP
        (fun c => c.exchangeId == exId && !c.consumed) = 0 := by
  intro l
  induction l with
  | nil => simp
  | cons x xs ih =>
    rw [List.map_cons, List.countP_cons, ih]
    by_cases hx : (x.exchangeId == exId) = true
    · rw [if_pos hx]
      simp
    · simp only [Bool.not_eq_true] at hx
      simp [hx]

/-- Invalidating the codes of one exchange does not change the unconsumed
count of any other exchange. -/
theorem countP_invalidate_other (exId x : Nat) (hxne : x ≠ exId) :
    ∀ l : List AccessCode,
      (l.map (fun c => if c.exchangeId == exId then { c with consumed := true } else c)).countP
        (fun c => c.exchangeId == x && !c.consumed)
      = l.countP (fun c => c.exchangeId == x && !c.consumed) := by
  intro l
  induction l with
  | nil => simp
  | cons hd tl ih =>
    rw [List.map_cons, List.countP_cons, List.countP_cons, ih]
    congr 1
    by_cases h1 : (hd.exchangeId == exId) = true
    · have h3 : hd.exchangeId = exId := by simpa using h1
      have h2 : (hd.exchangeId == x) = false := by
        simp [h3]
        omega
      simp [h1, h2]
    · simp only [Bool.not_eq_true] at h1
      simp [h1]

/-- Issuing a creator code for a BOX_ASSIGNED exchange and consuming it
advances the exchange to AWAITING_PICKUP, and presenting the same code a
second time fails with InvalidCode: the code is single-use. -/
theorem creator_code_single_use
    (st : CoordState) (exId : Nat) (ex : Exchange) (now ttl : Nat)
    (hfind : st.exchanges.find? (fun e => e.id == exId) = some ex)
    (hst : ex.status = .BOX_ASSIGNED)
    (hdl : ex.deadlineElapsed now = false)
    (httl : 0 < ttl) :
    (Coordinator.consumeBoxOpen (Coordinator.requestBoxOpen st exId .creator now ttl).2
        exId st.nextCodeValue now).1 = .ok () ∧
    (((Coordinator.consumeBoxOpen (Coordinator.requestBoxOpen st exId .creator now ttl).2
        exId st.nextCodeValue now).2.exchanges.find? (fun e => e.id == exId)).map
        Exchange.status = some .AWAITING_PICKUP) ∧
    (Coordinator.consumeBoxOpen
        (Coordinator.consumeBoxOpen (Coordinator.requestBoxOpen st exId .creator now ttl).2
          exId st.nextCodeValue now).2 exId st.nextCodeValue now).1
      = .error .InvalidCode := by
  have hexid : (ex.id == exId) = true := by
    simpa using List.find?_some hfind
  have hexp : ex.expiresNow now = false := by
    simp [Exchange.expiresNow, hdl]
  have hlt : now < now + ttl := by omega
  have hreq : Coordinator.requestBoxOpen st exId .creator now ttl
      = (.ok st.nextCodeValue,
        { st with
            codes := (⟨exId, .creator, st.nextCodeValue, false, now + ttl⟩ : AccessCode)
              :: st.codes.map
                (fun c => if c.exchangeId == exId then { c with consumed := true } else c)
            nextCodeValue := st.nextCodeValue + 1 }) := by
    simp only [Coordinator.requestBoxOpen, hfind, hst]
  rw [hreq]
  have hcons : Coordinator.consumeBoxOpen
      ({ st with
          codes := (⟨exId, .creator, st.nextCodeValue, false, now + ttl⟩ : AccessCode)
            :: st.codes.map
              (fun c => if c.exchangeId == exId then { c with consumed := true } else c)
          nextCodeValue := st.nextCodeValue + 1 } : CoordState)
      exId st.nextCodeValue now
      = (.ok (),
        { st with
            codes := ((⟨exId, .creator, st.nextCodeValue, true, now + ttl⟩ : AccessCode)
              :: (st.codes.map
                  (fun c => if c.exchangeId == exId then { c with consumed := true } else c)).map
                (fun cc => if cc.exchangeId == exId && cc.value == st.nextCodeValue then
                    { cc with consumed := true } else cc))
            exchanges := st.exchanges.map
              (fun e => if e.id == exId then { e with status := .AWAITING_PICKUP } else e)
            nextCodeValue := st.nextCodeValue + 1 }) := by
    simp only [Coordinator.consumeBoxOpen, hfind, hexp, hst, hlt]
    simp [List.find?_cons]
    omega
  rw [hcons]
  refine ⟨rfl, ?_, ?_⟩
  · have hp : ∀ a : Exchange,
        ((if a.id == exId then { a with status := ExStatus.AWAITING_PICKUP } else a).id == exId)
          = (a.id == exId) := by
      intro a
      by_cases ha : (a.id == exId) = true <;> simp [ha]
    have hf := find?_map_pres (fun e => e.id == exId)
      (fun a => if a.id == exId then { a with status := ExStatus.AWAITING_PICKUP } else a)
      hp st.exchanges ex hfind
    simp only [hf, Option.map_some]
    rw [if_pos hexid]
    rfl
  · simp only [Coordinator.consumeBoxOpen]
    have hp : ∀ a : Exchange,
        ((if a.id == exId then { a with status := ExStatus.AWAITING_PICKUP } else a).id == exId)
          = (a.id == exId) := by
      intro a
      by_cases ha : (a.id == exId) = true <;> simp [ha]
    have hf := find?_map_pres (fun e => e.id == exId)
      (fun a => if a.id == exId then { a with status := ExStatus.AWAITING_PICKUP } else a)
      hp st.exchanges ex hfind
    simp only [hf]
    rw [if_pos hexid]
    have hexp2 : ({ ex with status := ExStatus.AWAITING_PICKUP } : Exchange).expiresNow now
        = false := by
      simp [Exchange.expiresNow, Exchange.deadlineElapsed] at hdl ⊢
      intro h
      exact hdl
    simp only [hexp2]
    simp [List.find?_cons]

/-- Claim C4: single-use access codes.  Issuing and consuming codes keeps
at most one unconsumed (hence at most one unconsumed, unexpired) code per
exchange, every other operation leaves the code store untouched, and for
an exchange in BOX_ASSIGNED issuing a creator code and consuming it moves
the exchange to AWAITING_PICKUP while a second consume of the same code
fails with InvalidCode. -/
theorem claim_C4_single_use_code :
    (∀ st exId role now ttl, codeInv st →
      codeInv (Coordinator.requestBoxOpen st exId role now ttl).2) ∧
    (∀ st exId v now, codeInv st →
      codeInv (Coordinator.consumeBoxOpen st exId v now).2) ∧
    (∀ st c p ids d, (Coordinator.proposeExchange st c p ids d).2.codes = st.codes) ∧
    (∀ st exId t now, (Coordinator.changeExchangeStatus st exId t now).2.codes = st.codes) ∧
    (∀ st exId now, (Coordinator.cancelExchange st exId now).2.codes = st.codes) ∧
    (∀ st now, (Coordinator.expireSweep st now).codes = st.codes) ∧
    (∀ st, codeInv st → ∀ exId now,
      st.codes.countP
        (fun c => c.exchangeId == exId && !c.consumed && decide (now < c.expiresAt)) ≤ 1) ∧
    (∀ st exId ex now ttl,
      st.exchanges.find? (fun e => e.id == exId) = some ex →
      ex.status = .BOX_ASSIGNED →
      ex.deadlineElapsed now = false →
      0 < ttl →
      (Coordinator.consumeBoxOpen (Coordinator.requestBoxOpen st exId .creator now ttl).2
          exId st.nextCodeValue now).1 = .ok () ∧
      (((Coordinator.consumeBoxOpen (Coordinator.requestBoxOpen st exId .creator now ttl).2
          exId st.nextCodeValue now).2.exchanges.find? (fun e => e.id == exId)).map
          Exchange.status = some .AWAITING_PICKUP) ∧
      (Coordinator.consumeBoxOpen
          (Coordinator.consumeBoxOpen (Coordinator.requestBoxOpen st exId .creator now ttl).2
            exId st.nextCodeValue now).2 exId st.nextCodeValue now).1
        = .error .InvalidCode) := by
  refine ⟨?_, ?_, ?_, ?_, ?_, ?_, ?_, ?_⟩
  · intro st exId role now ttl hinv
    unfold Coordinator.requestBoxOpen
    split
    · exact hinv
    · split
      · intro x
        dsimp only
        by_cases hx : x = exId
        · subst hx
          rw [List.countP_cons, countP_invalidated]
          simp
        · rw [List.countP_cons, countP_invalidate_other exId x hx]
          have hne : (exId == x) = false := by
            simp
            omega
          simp only [hne, Bool.false_and]
          simpa using hinv x
      · intro x
        dsimp only
        by_cases hx : x = exId
        · subst hx
          rw [List.countP_cons, countP_invalidated]
          simp
        · rw [List.countP_cons, countP_invalidate_other exId x hx]
          have hne : (exId == x) = false := by
            simp
            omega
          simp only [hne, Bool.false_and]
          simpa using hinv x
      · exact hinv
  · intro st exId v now hinv
    unfold Coordinator.consumeBoxOpen
    split
    · exact hinv
    · split
      · exact hinv
      · split
        · exact hinv
        · split
          · exact hinv
          · split
            · intro x
              dsimp only
              refine le_trans (countP_map_le _ _ ?_ st.codes) (hinv x)
              intro a ha
              by_cases hc : (a.exchangeId == exId && a.value == v) = true
              · rw [if_pos hc] at ha
                simp at ha
              · rwa [if_neg hc] at ha
            · intro x
              dsimp only
              refine le_trans (countP_map_le _ _ ?_ st.codes) (hinv x)
              intro a ha
              by_cases hc : (a.exchangeId == exId && a.value == v) = true
              · rw [if_pos hc] at ha
                simp at ha
              · rwa [if_neg hc] at ha
            · exact hinv
  · intro st c p ids d
    unfold Coordinator.proposeExchange
    split
    · rfl
    · split <;> rfl
  · intro st exId t now
    unfold Coordinator.changeExchangeStatus
    split
    · rfl
    · split
      · rfl
      · split <;> rfl
  · intro st exId now
    unfold Coordinator.cancelExchange
    split
    · rfl
    · dsimp only
      split <;> rfl
  · intro st now
    rfl
  · intro st hinv exId now
    refine le_trans (countP_le_countP _ _ ?_ st.codes) (hinv exId)
    intro a ha
    simp only [Bool.and_eq_true] at ha ⊢
    exact ⟨ha.1.1, ha.1.2⟩
  · intro st exId ex now ttl hf hs hd ht
    exact creator_code_single_use st exId ex now ttl hf hs hd ht

/-- Witness for claim C4: starting from the concrete fixture state with no
codes, issuing a creator code keeps the per-exchange unconsumed-code bound,
and the concrete issue-consume-reconsume run of the scenario conjunct goes
through at instant 0 with a ttl of 30. -/
theorem claim_C4_witness :
    codeInv (Coordinator.requestBoxOpen stFixture 1 .creator 0 30).2 ∧
    ((Coordinator.consumeBoxOpen (Coordinator.requestBoxOpen stFixture 1 .creator 0 30).2
        1 stFixture.nextCodeValue 0).1 = .ok () ∧
      (((Coordinator.consumeBoxOpen (Coordinator.requestBoxOpen stFixture 1 .creator 0 30).2
          1 stFixture.nextCodeValue 0).2.exchanges.find? (fun e => e.id == 1)).map
          Exchange.status = some .AWAITING_PICKUP) ∧
      (Coordinator.consumeBoxOpen
          (Coordinator.consumeBoxOpen (Coordinator.requestBoxOpen stFixture 1 .creator 0 30).2
            1 stFixture.nextCodeValue 0).2 1 stFixture.nextCodeValue 0).1
        = .error .InvalidCode) :=
  ⟨claim_C4_single_use_code.1 stFixture 1 .creator 0 30
      (fun _ => by simp [stFixture]),
   claim_C4_single_use_code.2.2.2.2.2.2.2 stFixture 1 exFixture 0 30
      (by rfl) (by rfl) (by rfl) (by decide)⟩

/-- The item table has pairwise distinct ids (its primary key). -/
def itemKeysNodup (items : List Item) : Prop :=
  (items.map Item.id).Nodup

/-- In a table with distinct ids, looking a member row up by its id finds
exactly that row. -/
theorem find?_key_nodup :
    ∀ (items : List Item) (it : Item), itemKeysNodup items → it ∈ items →
      items.find? (fun r => r.id == it.id) = some it := by
  intro items
  induction items with
  | nil => intro it _ h; simp at h
  | cons r rs ih =>
    intro it hnd hmem
    have hnd0 : r.id ∉ rs.map Item.id ∧ (rs.map Item.id).Nodup := by
      have := hnd
      simp only [itemKeysNodup, List.map_cons, List.nodup_cons] at this
      exact this
    rcases List.mem_cons.mp hmem with h | h
    · subst h
      rw [List.find?_cons_of_pos]
      simp
    · have hne : r.id ≠ it.id := by
        intro hEq
        exact hnd0.1 (hEq ▸ List.mem_map_of_mem Item.id h)
      rw [List.find?_cons_of_neg]
      · exact ih it hnd0.2 h
      · simp [hne]

/-- Tagging a single already-tagged item through the ledger contract fails
with ItemConflict. -/
theorem tagOne_tagged (items : List Item) (exId : Nat) (it : Item)
    (hnd : itemKeysNodup items) (hmem : it ∈ items)
    (htag : it.exchange_id ≠ none) :
    Ledger.tagOne items exId it.id = .error .ItemConflict := by
  unfold Ledger.tagOne
  rw [find?_key_nodup items it hnd hmem]
  simp [htag]

/-- A successful single tagging step is exactly the pointwise update of the
table at the tagged id. -/
theorem tagOne_ok_eq (items : List Item) (exId i : Nat) (items' : List Item)
    (h : Ledger.tagOne items exId i = .ok items') :
    items' = items.map
      (fun r => if r.id = i then { r with exchange_id := some exId } else r) := by
  unfold Ledger.tagOne at h
  split at h
  · simp at h
  · split at h
    · simp at h
    · injection h with h
      exact h.symm

/-- The pointwise tag update leaves the key column of the table unchanged. -/
theorem map_id_update (i exId : Nat) :
    ∀ items : List Item,
      ((items.map (fun r => if r.id = i then { r with exchange_id := some exId } else r)).map
        Item.id) = items.map Item.id := by
  intro items
  induction items with
  | nil => rfl
  | cons hd tl ih =>
    simp only [List.map_cons, ih]
    congr 1
    by_cases h : hd.id = i <;> simp [h]

/-- A row whose id is not the tagged one survives the pointwise tag update
unchanged. -/
theorem mem_update_ne (i exId : Nat) (it : Item) (hne : it.id ≠ i)
    (items : List Item) (hmem : it ∈ items) :
    it ∈ items.map
      (fun r => if r.id = i then { r with exchange_id := some exId } else r) := by
  refine List.mem_map.mpr ⟨it, hmem, ?_⟩
  rw [if_neg hne]

/-- When a listed item is already tagged, sequentially tagging the listed
items fails. -/
theorem tagItems_tagged_fails (exId : Nat) (it : Item) :
    ∀ (ids : List Nat) (items : List Item),
      itemKeysNodup items → it ∈ items → it.exchange_id ≠ none →
      it.id ∈ ids →
      ∃ e, Ledger.tagItems items exId ids = .error e := by
  intro ids
  induction ids with
  | nil => intro items _ _ _ h; simp at h
  | cons i rest ih =>
    intro items hnd hmem htag hin
    by_cases hii : it.id = i
    · refine ⟨.ItemConflict, ?_⟩
      unfold Ledger.tagItems
      rw [← hii, tagOne_tagged items exId it hnd hmem htag]
    · have hin2 : it.id ∈ rest := by
        rcases List.mem_cons.mp hin with h | h
        · exact absurd h hii
        · exact h
      unfold Ledger.tagItems
      cases htg : Ledger.tagOne items exId i with
      | error e => exact ⟨e, rfl⟩
      | ok items2 =>
        have heq := tagOne_ok_eq items exId i items2 htg
        have hnd2 : itemKeysNodup items2 := by
          unfold itemKeysNodup
          rw [heq, map_id_update]
          exact hnd
        have hmem2 : it ∈ items2 := by
          rw [heq]
          exact mem_update_ne i exId it hii items hmem
        obtain ⟨e, he⟩ := ih items2 hnd2 hmem2 htag hin2
        exact ⟨e, he⟩

/-- Fixture: an item already tagged to exchange 5. -/
def itemTagged : Item := ⟨1, 10, 20, 2, 3, 4, some 5⟩

/-- Counterexample for claim C2: addExchangeIdToItem does change an
already-tagged item to a different exchange — on a table whose only row is
tagged to exchange 5, tagging the row for exchange 9 rewrites its tag to 9
without the tag ever being cleared. -/
theorem claim_C2_counterexample :
    (ItemService.addExchangeIdToItem [itemTagged] 9 [1]).1.map Item.exchange_id
        = [some 9] ∧
    [itemTagged].map Item.exchange_id = [some 5] := by
  constructor <;> rfl

/-- Claim C2 (amended): including an already-tagged item in a proposal
fails — the source pre-check retrieveItemSizesAndCheckExchange rejects the
set, the spec-level ledger contract Ledger.tagOne fails with ItemConflict,
and proposeExchange fails leaving the state unchanged — but the source
tagging operation addExchangeIdToItem itself is an unconditional update
that overwrites the tag of every listed row, so exclusivity rests on the
pre-check alone, not on the tagging write. -/
theorem claim_C2_tag_exclusivity_amended :
    (∀ (table : List Item) (ids : List Nat) (it : Item),
      it ∈ table → it.id ∈ ids → it.exchange_id ≠ none →
      ItemService.retrieveItemSizesAndCheckExchange table ids false
        = .error "Failed to fetch item sizes") ∧
    (∀ (items : List Item) (exId : Nat) (it : Item),
      itemKeysNodup items → it ∈ items → it.exchange_id ≠ none →
      Ledger.tagOne items exId it.id = .error .ItemConflict) ∧
    (∀ (st : CoordState) (cr pu : Nat) (ids : List Nat) (d : Option Nat) (it : Item),
      itemKeysNodup st.items → it ∈ st.items → it.exchange_id ≠ none →
      it.id ∈ ids →
      ∃ e, Coordinator.proposeExchange st cr pu ids d = (.error e, st)) ∧
    (∀ (table : List Item) (exid : Nat) (ids : List Nat) (it : Item),
      it ∈ table → it.id ∈ ids →
      { it with exchange_id := some exid } ∈ (ItemService.addExchangeIdToItem table exid ids).1) := by
  refine ⟨?_, ?_, ?_, ?_⟩
  · intro table ids it hmem hin htag
    have hcond : True ∧
        ((table.filter (fun it => it.id ∈ ids)).any
          (fun it => it.exchange_id ≠ none)) = true := by
      refine ⟨trivial, ?_⟩
      rw [List.any_eq_true]
      exact ⟨it, List.mem_filter.mpr ⟨hmem, by simpa using hin⟩, by simpa using htag⟩
    simp only [ItemService.retrieveItemSizesAndCheckExchange]
    rw [if_pos hcond]
  · intro items exId it hnd hmem htag
    exact tagOne_tagged items exId it hnd hmem htag
  · intro st cr pu ids d it hnd hmem htag hin
    obtain ⟨e, he⟩ := tagItems_tagged_fails st.nextExchangeId it ids st.items hnd hmem htag hin
    refine ⟨e, ?_⟩
    have hne : ids.isEmpty = false := by
      cases ids with
      | nil => simp at hin
      | cons a l => rfl
    simp only [Coordinator.proposeExchange, hne, Bool.false_eq_true, if_false, he]
  · intro table exid ids it hmem hin
    refine List.mem_map.mpr ⟨it, hmem, ?_⟩
    rw [if_pos hin]

/-- Fixture table for the C2 witness: the tagged item next to an untagged
one. -/
def tableC2 : List Item := [itemTagged, ⟨2, 10, 20, 2, 3, 4, none⟩]

/-- Witness for claim C2 (amended): on the concrete two-row table the
pre-check rejects the set naming the tagged row, the ledger contract
refuses to re-tag it, a proposal naming it fails with the state unchanged,
and the unconditional update overwrites its tag. -/
theorem claim_C2_witness :
    ItemService.retrieveItemSizesAndCheckExchange tableC2 [1, 2] false
        = .error "Failed to fetch item sizes" ∧
    Ledger.tagOne tableC2 9 1 = .error .ItemConflict ∧
    (∃ e, Coordinator.proposeExchange stFixture 10 20 [1] none = (.error e, stFixture)) ∧
    { itemTagged with exchange_id := some 9 }
      ∈ (ItemService.addExchangeIdToItem tableC2 9 [1, 2]).1 :=
  ⟨claim_C2_tag_exclusivity_amended.1 tableC2 [1, 2] itemTagged
      (by simp [tableC2]) (by simp [itemTagged]) (by simp [itemTagged]),
   claim_C2_tag_exclusivity_amended.2.1 tableC2 9 itemTagged
      (by simp [itemKeysNodup, tableC2, itemTagged]) (by simp [tableC2])
      (by simp [itemTagged]),
   claim_C2_tag_exclusivity_amended.2.2.1 stFixture 10 20 [1] none
      (⟨1, 10, 20, 2, 3, 4, some 1⟩ : Item)
      (by simp [itemKeysNodup, stFixture]) (by simp [stFixture]) (by simp) (by simp),
   claim_C2_tag_exclusivity_amended.2.2.2 tableC2 9 [1, 2] itemTagged
      (by simp [tableC2]) (by simp [itemTagged])⟩

/-- Claim C3 evaluation: deleting an item that is part of an exchange does
not surface the conflict — the source catches it and returns false with
the table unchanged — and the pre-tagging size check reports the conflict
only as the generic fetch-failure message; both observed on a concrete
tagged item. -/
theorem claim_C3_conflict_swallowed :
    ItemService.deleteItem [itemTagged] 1 = (false, [itemTagged]) ∧
    ItemService.retrieveItemSizesAndCheckExchange [itemTagged] [1] false
      = .error "Failed to fetch item sizes" := by
  constructor <;> rfl

/-- Clearing the exchange tags of a list of ids is a pointwise-idempotent
table update. -/
theorem clearTags_pointwise (ids : List Nat) :
    ∀ table : List Item,
      (table.map (fun it => if it.id ∈ ids then { it with exchange_id := none } else it)).map
        (fun it => if it.id ∈ ids then { it with exchange_id := none } else it)
      = table.map (fun it => if it.id ∈ ids then { it with exchange_id := none } else it) := by
  intro table
  induction table with
  | nil => rfl
  | cons hd tl ih =>
    simp only [List.map_cons, ih]
    congr 1
    by_cases h : hd.id ∈ ids <;> simp [h]

/-- Claim C7: idempotence of tag clearing.  deleteExchangeFromItems returns
true, running it a second time on its own result changes nothing, and every
listed item ends with a null exchange tag. -/
theorem claim_C7_clearTags_idempotent :
    ∀ (table : List Item) (ids : List Nat),
      (ItemService.deleteExchangeFromItems table ids).1 = true ∧
      ItemService.deleteExchangeFromItems
          (ItemService.deleteExchangeFromItems table ids).2 ids
        = ItemService.deleteExchangeFromItems table ids ∧
      ∀ it ∈ (ItemService.deleteExchangeFromItems table ids).2,
        it.id ∈ ids → it.exchange_id = none := by
  intro table ids
  refine ⟨rfl, ?_, ?_⟩
  · unfold ItemService.deleteExchangeFromItems
    dsimp only
    rw [clearTags_pointwise]
  · intro it hmem hin
    obtain ⟨a, ha, hfa⟩ := List.mem_map.mp hmem
    by_cases h : a.id ∈ ids
    · rw [if_pos h] at hfa
      rw [← hfa]
    · rw [if_neg h] at hfa
      subst hfa
      exact absurd hin h

/-- Witness for claim C7: on the concrete two-row table both runs return
true and the concrete cleared row carries a null tag. -/
theorem claim_C7_witness :
    (ItemService.deleteExchangeFromItems tableC2 [1, 2]).1 = true ∧
    (⟨1, 10, 20, 2, 3, 4, none⟩ : Item).exchange_id = none :=
  ⟨(claim_C7_clearTags_idempotent tableC2 [1, 2]).1,
   (claim_C7_clearTags_idempotent tableC2 [1, 2]).2.2
     ⟨1, 10, 20, 2, 3, 4, none⟩ (by decide) (by decide)⟩

/-- Claim C8: the user controller caches getUser under the single fixed key
getUser, so after a first call for user a populated the cache, a call for
any user b within the TTL returns the record fetched for a: the response
depends on the call history, not only on the requested id. -/
theorem claim_C8_getUser_fixed_cache_key :
    ∀ (svc : Nat → UserDto) (a b : Nat),
      (UserController.getUser svc [] a).1 = svc a ∧
      (UserController.getUser svc (UserController.getUser svc [] a).2 b).1 = svc a := by
  intro svc a b
  exact ⟨rfl, rfl⟩

/-- A normal return of checkIfFriends is always false: the friends case
throws instead of returning true. -/
theorem checkIfFriends_ok_false :
    ∀ (users : List UserRow) (uid fid : Nat) (b : Bool),
      UserFriendService.checkIfFriends users uid fid = .ok b → b = false := by
  intro users uid fid b h
  unfold UserFriendService.checkIfFriends at h
  split at h
  · simp at h
  · split at h
    · simp at h
    · split at h
      · simp at h
      · injection h with h
        exact h.symm

/-- Claim C9: checkIfFriends never returns true — every normal return is
false, actual friendship is reported as a thrown ConflictException — and
consequently the friendship gate of createItem never reaches its success
path for any input. -/
theorem claim_C9_checkIfFriends_never_true :
    (∀ (users : List UserRow) (uid fid : Nat) (b : Bool),
      UserFriendService.checkIfFriends users uid fid = .ok b → b = false) ∧
    (∀ (users : List UserRow) (uid fid : Nat) (u v : UserRow),
      users.find? (fun x => x.id == uid) = some u →
      users.find? (fun x => x.id == fid) = some v →
      fid ∈ u.friends →
      UserFriendService.checkIfFriends users uid fid
        = .error (.ConflictEx "The specified users are friends.")) ∧
    (∀ (users : List UserRow) (uid fid : Nat), ∃ msg,
      ItemService.createItemFriendCheck (UserController.checkIfFriends users uid fid)
        = .error msg) := by
  refine ⟨checkIfFriends_ok_false, ?_, ?_⟩
  · intro users uid fid u v hu hv hf
    simp only [UserFriendService.checkIfFriends, hu, hv]
    rw [if_pos hf]
  · intro users uid fid
    unfold UserController.checkIfFriends
    cases hc : UserFriendService.checkIfFriends users uid fid with
    | error e => exact ⟨e.message, rfl⟩
    | ok b =>
      have hb := checkIfFriends_ok_false users uid fid b hc
      subst hb
      exact ⟨"Cannot create item: The specified users are not friends.", rfl⟩

/-- Fixture: two users who are friends of each other. -/
def usersFriends : List UserRow := [⟨1, [2]⟩, ⟨2, [1]⟩]

/-- Fixture: two users who are not friends. -/
def usersStrangers : List UserRow := [⟨1, []⟩, ⟨2, []⟩]

/-- Witness for claim C9: concrete strangers get a false return, concrete
friends get the ConflictException, and the createItem gate fails on the
concrete strangers. -/
theorem claim_C9_witness :
    (false : Bool) = false ∧
    UserFriendService.checkIfFriends usersFriends 1 2
      = .error (.ConflictEx "The specified users are friends.") ∧
    (∃ msg, ItemService.createItemFriendCheck
        (UserController.checkIfFriends usersStrangers 1 2) = .error msg) :=
  ⟨claim_C9_checkIfFriends_never_true.1 usersStrangers 1 2 false (by rfl),
   claim_C9_checkIfFriends_never_true.2.1 usersFriends 1 2 ⟨1, [2]⟩ ⟨2, [1]⟩
     (by rfl) (by rfl) (by simp),
   claim_C9_checkIfFriends_never_true.2.2 usersStrangers 1 2⟩

/-- Fixture: an item owned by user 10 with friend 20. -/
def itemC10 : Item := ⟨1, 10, 20, 2, 2, 2, none⟩

/-- Fixture table for the controller comparison. -/
def tableC10 : List Item := [itemC10]

/-- Claim C10: the two item controllers wire the forgoten flag in opposite
directions — each one serves, message for message, the result set of the
other — and on the concrete one-row table the same getUserItems message
yields different results from the two controllers, so the embeddings are
not behaviourally equivalent. -/
theorem claim_C10_controllers_swapped :
    (∀ (table : List Item) (id : Nat),
      ItemController.getUserItems none table id
        = ItemControllerTcp.getUserForgotenItems table id) ∧
    (∀ (table : List Item) (id : Nat),
      ItemController.getUserForgotenItems none table id
        = ItemControllerTcp.getUserItems table id) ∧
    ItemController.getUserItems none tableC10 10 = [itemC10] ∧
    ItemControllerTcp.getUserItems tableC10 10 = [] :=
  ⟨fun _ _ => rfl, fun _ _ => rfl, rfl, rfl⟩
